import Mathlib

/-!
Shallow embedding of `likert_correlation` (src/likert_correlation/analyzer.py).

The statistical core is `LikertAnalyzer.analyze`: it extracts two columns,
drops each column's own missing values independently, feeds the two series to
`scipy.stats.kendalltau` and `scipy.stats.spearmanr`, counts ties, and applies
a recommendation rule and two interpretation tables.

Numeric model: every correlation coefficient produced by the source has the
exact form `num / sqrt rad` with `num`, `rad` rational (Kendall tau-b is
`(con - dis) / sqrt ((tot - xtie) * (tot - ytie))`; Spearman rho is a Pearson
correlation of rational midranks).  We represent such a value by the pair
`(num, rad)` (structure `PFloat`); `rad = 0` encodes the IEEE NaN that scipy
returns for degenerate inputs (constant column, too few observations).
Comparisons against rational thresholds are encoded by sign analysis and
squaring; lemmas below prove each encoding equal to the comparison of the
represented real value, and every comparison on a NaN (`rad = 0`) is false,
exactly as for IEEE floats in Python.  Rounding error of binary floating
point is idealized away (0.4 stands for exactly 2/5, etc.).
-/

/-- A scipy correlation value `num / Real.sqrt rad`; `rad = 0` encodes NaN.
All values the source produces have this shape with rational components. -/
structure PFloat where
  num : ℚ
  rad : ℚ
  deriving DecidableEq

/-- The NaN result scipy returns on degenerate input (also used for the
significance p-values, whose numeric computation inside scipy is large,
separately implemented special-function code that no analyzed property
depends on; only the shape of the record is needed). -/
def PFloat.nan : PFloat := ⟨0, 0⟩

/-- Embedding of `LikertAnalyzer._interpret_kendall` (analyzer.py lines 58-70).
Branch conditions encode the Python float comparisons on the represented value
`num / sqrt rad`:  `tau == 1` is `0 < num and num^2 = rad`;  `c <= abs(tau)` is
`c^2 * rad <= num^2`;  `abs(tau) < c` is `num^2 < c^2 * rad`;  `tau > 0` is
`0 < num`;  `-0.1 < tau < 0.1` is `abs(tau) < 0.1`.  Each condition also
requires `0 < rad`, so on NaN every comparison is false and control falls
through to the final else branch, as in Python. -/
def interpret_kendall (tau : PFloat) : String :=
  if 0 < tau.rad ∧ 0 < tau.num ∧ tau.num ^ 2 = tau.rad then
    "Perfect agreement"
  else if 0 < tau.rad ∧ (2/5 : ℚ) ^ 2 * tau.rad ≤ tau.num ^ 2 ∧ tau.num ^ 2 < tau.rad then
    "Strong " ++ (if 0 < tau.num then "agreement" else "disagreement")
  else if 0 < tau.rad ∧ (1/10 : ℚ) ^ 2 * tau.rad ≤ tau.num ^ 2 ∧
      tau.num ^ 2 < (2/5 : ℚ) ^ 2 * tau.rad then
    "Weak " ++ (if 0 < tau.num then "agreement" else "disagreement")
  else if 0 < tau.rad ∧ tau.num ^ 2 < (1/10 : ℚ) ^ 2 * tau.rad then
    "No association"
  else
    "Perfect disagreement"

/-- Embedding of `LikertAnalyzer._interpret_spearman` (analyzer.py lines 72-84),
same comparison encoding as `interpret_kendall`, strong threshold 0.5. -/
def interpret_spearman (rho : PFloat) : String :=
  if 0 < rho.rad ∧ 0 < rho.num ∧ rho.num ^ 2 = rho.rad then
    "Perfect positive correlation"
  else if 0 < rho.rad ∧ (1/2 : ℚ) ^ 2 * rho.rad ≤ rho.num ^ 2 ∧ rho.num ^ 2 < rho.rad then
    "Strong " ++ (if 0 < rho.num then "positive" else "negative") ++ " correlation"
  else if 0 < rho.rad ∧ (1/10 : ℚ) ^ 2 * rho.rad ≤ rho.num ^ 2 ∧
      rho.num ^ 2 < (1/2 : ℚ) ^ 2 * rho.rad then
    "Weak " ++ (if 0 < rho.num then "positive" else "negative") ++ " correlation"
  else if 0 < rho.rad ∧ rho.num ^ 2 < (1/10 : ℚ) ^ 2 * rho.rad then
    "No correlation"
  else
    "Perfect negative correlation"

/-- All pairs `(l i, l j)` with `i < j`: the pair universe over which
concordant, discordant and tied pairs are counted. -/
def pairsOf : List α → List (α × α)
  | [] => []
  | x :: xs => (xs.map fun y => (x, y)) ++ pairsOf xs

/-- Embedding of `scipy.stats.kendalltau` (tau-b) on paired observations:
`tau = (con - dis) / sqrt ((tot - xtie) * (tot - ytie))` where `tot` is the
number of index pairs, `xtie`/`ytie` the pairs tied in the first/second
coordinate, `con`/`dis` the strictly concordant/discordant pairs.  scipy
returns NaN when `xtie = tot` or `ytie = tot`, which is exactly `rad = 0`
here; its final clipping of `tau` into `[-1, 1]` is the identity in exact
arithmetic. -/
def kendalltau (ps : List (ℚ × ℚ)) : PFloat :=
  let pr := pairsOf ps
  let tot : ℕ := pr.length
  let con : ℕ := pr.countP fun q => decide (0 < (q.1.1 - q.2.1) * (q.1.2 - q.2.2))
  let dis : ℕ := pr.countP fun q => decide ((q.1.1 - q.2.1) * (q.1.2 - q.2.2) < 0)
  let xtie : ℕ := pr.countP fun q => decide (q.1.1 = q.2.1)
  let ytie : ℕ := pr.countP fun q => decide (q.1.2 = q.2.2)
  ⟨(con : ℚ) - (dis : ℚ), ((tot : ℚ) - (xtie : ℚ)) * ((tot : ℚ) - (ytie : ℚ))⟩

/-- Midranks (`scipy.stats.rankdata` with the default average method):
the rank of `x` is (number of elements below `x`) + (ties of `x` + 1) / 2. -/
def midranks (l : List ℚ) : List ℚ :=
  l.map fun x =>
    (l.countP (fun y => decide (y < x)) : ℚ) + ((l.countP (fun y => decide (y = x)) : ℚ) + 1) / 2

/-- Pearson correlation in the `num / sqrt rad` representation, using the
n-scaled centered sums: `num = n * sum (a*b) - sum a * sum b` and
`rad = (n * sum a^2 - (sum a)^2) * (n * sum b^2 - (sum b)^2)`; this equals
the usual covariance quotient (both factors are scaled by `n`), and `rad = 0`
exactly when some input is constant or has fewer than two entries — the cases
where scipy emits NaN. -/
def pearsonRep (a b : List ℚ) : PFloat :=
  ⟨(a.length : ℚ) * (List.zipWith (fun x y => x * y) a b).sum - a.sum * b.sum,
   ((a.length : ℚ) * (a.map fun x => x ^ 2).sum - a.sum ^ 2) *
     ((b.length : ℚ) * (b.map fun x => x ^ 2).sum - b.sum ^ 2)⟩

/-- Embedding of `scipy.stats.spearmanr`: Pearson correlation of midranks. -/
def spearmanr (a b : List ℚ) : PFloat :=
  pearsonRep (midranks a) (midranks b)

/-- The recommendation rule of `analyze` (analyzer.py lines 112-121), a pure
function of `(sample_size, total_ties)` returning the pair
(recommended_method, recommendation_reason). -/
def recommendation (sample_size total_ties : ℕ) : String × String :=
  if sample_size < 30 then
    ("Kendall\x27s tau", "Small sample size (n < 30)")
  else if (total_ties : ℚ) > (sample_size : ℚ) * 0.2 then
    ("Kendall\x27s tau",
      "High number of ties (" ++ toString total_ties ++ " ties in " ++
        toString sample_size ++ " observations)")
  else
    ("Spearman\x27s rho", "Larger sample size with fewer ties")

/-- A pandas DataFrame: ordered named columns of numeric cells; a cell holds
`none` where the source file has a missing value (NaN). -/
structure DataTable where
  cols : List (String × List (Option ℚ))
  deriving DecidableEq

/-- Column access `self.data[name]`: first column with the given name, or
`none` (pandas raises `KeyError`) when the name is absent. -/
def DataTable.col? (t : DataTable) (name : String) : Option (List (Option ℚ)) :=
  t.cols.lookup name

/-- `Series.dropna()`: the column's values with its own missing cells removed. -/
def dropna (l : List (Option ℚ)) : List ℚ :=
  l.filterMap id

/-- The analyzer object: `self.data` and `self.columns`. -/
structure LikertAnalyzer where
  data : Option DataTable
  columns : List String
  deriving DecidableEq

/-- `LikertAnalyzer.__init__`. -/
def LikertAnalyzer.init : LikertAnalyzer := ⟨none, []⟩

/-- The exceptions `analyze` can raise: the explicit
`ValueError("No data loaded...")`, the `KeyError` pandas raises for an
unknown column name, and the `ValueError` scipy raises when the two series
passed to `kendalltau` have different sizes. -/
inductive AnalyzeError where
  | noDataLoaded
  | unknownColumn (name : String)
  | scipyLengthMismatch
  deriving DecidableEq

/-- The `AnalysisResults` dataclass (analyzer.py lines 13-25). -/
structure AnalysisResults where
  kendall_tau : PFloat
  kendall_p : PFloat
  spearman_rho : PFloat
  spearman_p : PFloat
  sample_size : ℕ
  total_ties : ℕ
  recommended_method : String
  recommendation_reason : String
  kendall_interpretation : String
  spearman_interpretation : String
  deriving DecidableEq

/-- Embedding of `LikertAnalyzer.analyze` (analyzer.py lines 86-134).
Each column is `dropna`-filtered independently; scipy rejects series of
unequal length before anything else is computed, hence the length guard.
`ties1 = len(data1) - len(data1.unique())` is `length - dedup.length`.
The p-value fields are filled with `PFloat.nan` (their numeric computation is
not modelled, see `PFloat.nan`). -/
def analyze (a : LikertAnalyzer) (col1 col2 : String) : Except AnalyzeError AnalysisResults :=
  match a.data with
  | none => .error .noDataLoaded
  | some t =>
    match t.col? col1 with
    | none => .error (.unknownColumn col1)
    | some c1 =>
      match t.col? col2 with
      | none => .error (.unknownColumn col2)
      | some c2 =>
        let data1 := dropna c1
        let data2 := dropna c2
        if data1.length = data2.length then
          let tau := kendalltau (data1.zip data2)
          let rho := spearmanr data1 data2
          let ties1 := data1.length - data1.dedup.length
          let ties2 := data2.length - data2.dedup.length
          let total_ties := ties1 + ties2
          let sample_size := data1.length
          let recm := recommendation sample_size total_ties
          .ok ⟨tau, PFloat.nan, rho, PFloat.nan, sample_size, total_ties,
            recm.1, recm.2, interpret_kendall tau, interpret_spearman rho⟩
        else
          .error .scipyLengthMismatch

/-- The errors `load_data` can raise: the explicit
`ValueError("Unsupported file format...")` and whatever `pandas.read_csv` /
`read_excel` raise for an unreadable or unparsable file. -/
inductive LoadError where
  | unsupportedFormat
  | readError (msg : String)
  deriving DecidableEq

/-- A data source handed to `load_data`: the filename extension (with dot, as
`Path.suffix`) and the outcome of the pandas read of its content — parsing a
file is external library work, modelled by its result. -/
structure Source where
  suffix : String
  parsed : Except String DataTable

/-- Python `str.lower()` (ASCII), written over the character list so that it
evaluates by kernel reduction. -/
def pyLower (s : String) : String := ⟨s.data.map Char.toLower⟩

/-- Embedding of `LikertAnalyzer.load_data` (analyzer.py lines 35-56): suffix
dispatch, then `self.data` and `self.columns` are replaced (the old analyzer
state is discarded wholesale) and the column names are returned in source
order. -/
def load_data (_a : LikertAnalyzer) (src : Source) : Except LoadError (List String × LikertAnalyzer) :=
  if pyLower src.suffix = ".csv" then
    match src.parsed with
    | .error m => .error (.readError m)
    | .ok t => .ok (t.cols.map Prod.fst, ⟨some t, t.cols.map Prod.fst⟩)
  else if pyLower src.suffix = ".xlsx" ∨ pyLower src.suffix = ".xls" then
    match src.parsed with
    | .error m => .error (.readError m)
    | .ok t => .ok (t.cols.map Prod.fst, ⟨some t, t.cols.map Prod.fst⟩)
  else
    .error .unsupportedFormat

/-- Stated from the specification, for comparison with the code: the count of
rows in which neither of the two selected columns has a missing value. -/
def specPairedRowCount (cA cB : List (Option ℚ)) : ℕ :=
  (cA.zip cB).countP fun p => p.1.isSome && p.2.isSome

/-- Python `int()` applied to a rational: truncation toward zero. -/
def pyTrunc (q : ℚ) : ℤ :=
  if 0 ≤ q then ⌊q⌋ else ⌈q⌉

/-- Minimum of a list (`Series.min()`), only used on nonempty lists. -/
def listMinQ : List ℚ → ℚ
  | [] => 0
  | x :: xs => xs.foldl min x

/-- Maximum of a list (`Series.max()`), only used on nonempty lists. -/
def listMaxQ : List ℚ → ℚ
  | [] => 0
  | x :: xs => xs.foldl max x

/-- `list(range(a, b + 1))`: the integers from `a` to `b` inclusive. -/
def intRange (a b : ℤ) : List ℤ :=
  (List.range (b + 1 - a).toNat).map fun i => a + (i : ℤ)

/-- The axis labels of the heatmap in `create_visualizations`: the distinct
observed values of a column, together with the integer grid values added by
the zero-filling loops, sorted ascending (`crosstab` + `sort_index`). -/
def heatAxis (observed : List ℚ) (grid : List ℚ) : List ℚ :=
  List.insertionSort (fun x y => x ≤ y)
    (observed.dedup ++ grid.filter fun v => decide (v ∉ observed))

/-- The data content of the plotly figure built by
`LikertAnalyzer.create_visualizations` (analyzer.py lines 136-264): the
integer value grid, the two per-value frequency panels, the zero-filled joint
frequency matrix with its axes, and the jittered scatter points.  Pure layout
(titles, colors, sizes) carries no data and is not part of the model. -/
structure Figure where
  all_values : List ℤ
  counts1 : List ℕ
  counts2 : List ℕ
  heat_x : List ℚ
  heat_y : List ℚ
  heatmap : List (List ℕ)
  scatter_x : List ℚ
  scatter_y : List ℚ
  deriving DecidableEq

/-- The exceptions `create_visualizations` can raise: the explicit no-data
`ValueError`, the pandas `KeyError` for an unknown column, the `ValueError`
from `int(...)` when the first filtered series is empty (its `min()` is NaN),
and the broadcast `ValueError` when the two filtered series have different
lengths (`data2 + jitter` with a jitter array sized to `data1`). -/
inductive VizError where
  | noDataLoaded
  | unknownColumn (name : String)
  | intOfNaN
  | broadcastMismatch
  deriving DecidableEq

/-- Process state for the source's use of the global NumPy random generator:
the analyzer object plus the stream of values that successive calls of
`np.random.normal` will return.  `analyze` never touches the stream; only
`create_visualizations` draws from it. -/
structure World where
  analyzer : LikertAnalyzer
  rng : List ℚ

/-- `analyze` as a state transformer on `World`: it is embedded directly from
code that contains no call into the random generator, so the stream is
returned unchanged and the result is computed from the analyzer alone. -/
def analyzeW (w : World) (col1 col2 : String) :
    Except AnalyzeError AnalysisResults × World :=
  (analyze w.analyzer col1 col2, w)

/-- Embedding of `LikertAnalyzer.create_visualizations` on `World`.  The
jitter (`np.random.normal(0, 0.1, size=len(data1))`, line 218) is the next
`len(data1)` values of the stream, consumed on every path that reaches the
scatter panel; the same jitter vector is added to both coordinates, as in the
source (`x=data1 + jitter, y=data2 + jitter`). -/
def create_visualizationsW (w : World) (col1 col2 : String) :
    Except VizError Figure × World :=
  match w.analyzer.data with
  | none => (.error .noDataLoaded, w)
  | some t =>
    match t.col? col1 with
    | none => (.error (.unknownColumn col1), w)
    | some c1 =>
      match t.col? col2 with
      | none => (.error (.unknownColumn col2), w)
      | some c2 =>
        let data1 := dropna c1
        let data2 := dropna c2
        if data1.isEmpty then
          (.error .intOfNaN, w)
        else
          let lo := pyTrunc (min (listMinQ data1) (listMinQ data2))
          let hi := pyTrunc (max (listMaxQ data1) (listMaxQ data2))
          let all_values := intRange lo hi
          let grid : List ℚ := all_values.map fun v => (v : ℚ)
          let jitter := w.rng.take data1.length
          let w' : World := ⟨w.analyzer, w.rng.drop data1.length⟩
          if data1.length = data2.length then
            let ax := heatAxis data1 grid
            let ay := heatAxis data2 grid
            (.ok ⟨all_values,
              all_values.map (fun v => data1.countP fun x => decide (x = (v : ℚ))),
              all_values.map (fun v => data2.countP fun x => decide (x = (v : ℚ))),
              ax, ay,
              ay.map fun v2 => ax.map fun v1 =>
                (data1.zip data2).countP fun p => decide (p.1 = v1 ∧ p.2 = v2),
              List.zipWith (fun x j => x + j) data1 jitter,
              List.zipWith (fun x j => x + j) data2 jitter⟩, w')
          else
            (.error .broadcastMismatch, w')

/-- A placeholder record, used only as the default of `Option.getD` when
naming the result of a concrete successful `analyze` call. -/
def dummyResult : AnalysisResults :=
  ⟨⟨0, 0⟩, ⟨0, 0⟩, ⟨0, 0⟩, ⟨0, 0⟩, 0, 0, "", "", "", ""⟩

/-- Column A of the mixed-missing example: values 1, 2, NaN, 4. -/
def colAMixed : List (Option ℚ) := [some 1, some 2, none, some 4]

/-- Column B of the mixed-missing example: values 1, NaN, 3, 4 — missing in a
different row than column A, but with the same number of missing cells. -/
def colBMixed : List (Option ℚ) := [some 1, none, some 3, some 4]

/-- Loaded table whose two columns have missing values in different rows. -/
def tblMixed : DataTable := ⟨[("A", colAMixed), ("B", colBMixed)]⟩

/-- Analyzer with `tblMixed` loaded. -/
def aMixed : LikertAnalyzer := ⟨some tblMixed, ["A", "B"]⟩

/-- The record returned by `analyze` on the mixed-missing example. -/
def rMixed : AnalysisResults :=
  (analyze aMixed "A" "B").toOption.getD dummyResult

/-- The five-point Likert values 1..5. -/
def vals5 : List ℚ := [1, 2, 3, 4, 5]

/-- Table with two identical complete 5-point Likert columns. -/
def tblLikert : DataTable := ⟨[("A", vals5.map some), ("B", vals5.map some)]⟩

/-- Analyzer with `tblLikert` loaded. -/
def aLikert : LikertAnalyzer := ⟨some tblLikert, ["A", "B"]⟩

/-- The record returned by `analyze` on the identical-columns example. -/
def rLikert : AnalysisResults :=
  (analyze aLikert "A" "B").toOption.getD dummyResult

/-- Table whose column A is constant (3, 3, 3) while B is 1, 2, 3: scipy
returns NaN for both coefficients on it. -/
def tblConst : DataTable :=
  ⟨[("A", [some 3, some 3, some 3]), ("B", [some 1, some 2, some 3])]⟩

/-- Analyzer with `tblConst` loaded. -/
def aConst : LikertAnalyzer := ⟨some tblConst, ["A", "B"]⟩

/-- The record returned by `analyze` on the constant-column example. -/
def rConst : AnalysisResults :=
  (analyze aConst "A" "B").toOption.getD dummyResult

/-- Table whose two columns keep different numbers of values after their own
missing cells are dropped: A keeps 2 values, B keeps 3. -/
def tblUneven : DataTable :=
  ⟨[("A", [some 1, none, some 3]), ("B", [some 1, some 2, some 3])]⟩

/-- Analyzer with `tblUneven` loaded. -/
def aUneven : LikertAnalyzer := ⟨some tblUneven, ["A", "B"]⟩

/-! ## Correctness of the PFloat comparison encodings

Each Python float comparison used by the interpretation tables is encoded in
`interpret_kendall` / `interpret_spearman` as a rational condition on
`(num, rad)`; the lemmas here prove each encoding equivalent to the
corresponding comparison of the represented real value `num / sqrt rad`
whenever `0 < rad` (a non-NaN value). -/

theorem pf_sqrt_pos {rad : ℚ} (h : 0 < rad) : 0 < Real.sqrt (rad : ℝ) :=
  Real.sqrt_pos.mpr (by exact_mod_cast h)

theorem pf_val_pos {num rad : ℚ} (h : 0 < rad) :
    (0 < (num : ℝ) / Real.sqrt (rad : ℝ)) ↔ 0 < num := by
  rw [lt_div_iff₀ (pf_sqrt_pos h), zero_mul]
  exact Rat.cast_pos

theorem pf_val_neg {num rad : ℚ} (h : 0 < rad) :
    ((num : ℝ) / Real.sqrt (rad : ℝ) < 0) ↔ num < 0 := by
  rw [div_lt_iff₀ (pf_sqrt_pos h), zero_mul]
  exact Rat.cast_lt_zero

theorem pf_val_abs {num rad : ℚ} :
    |(num : ℝ) / Real.sqrt (rad : ℝ)| = |(num : ℝ)| / Real.sqrt (rad : ℝ) := by
  rw [abs_div, abs_of_nonneg (Real.sqrt_nonneg _)]

theorem pf_le_abs {num rad : ℚ} (c : ℚ) (h : 0 < rad) (hc : 0 ≤ c) :
    ((c : ℝ) ≤ |(num : ℝ) / Real.sqrt (rad : ℝ)|) ↔ c ^ 2 * rad ≤ num ^ 2 := by
  rw [pf_val_abs, le_div_iff₀ (pf_sqrt_pos h)]
  constructor
  · intro hle
    have h2 := pow_le_pow_left₀ (by positivity) hle 2
    rw [mul_pow, Real.sq_sqrt (by exact_mod_cast h.le), sq_abs] at h2
    exact_mod_cast h2
  · intro hle
    have h2 : ((c : ℝ) * Real.sqrt (rad : ℝ)) ^ 2 ≤ |(num : ℝ)| ^ 2 := by
      rw [mul_pow, Real.sq_sqrt (by exact_mod_cast h.le), sq_abs]
      exact_mod_cast hle
    exact le_of_pow_le_pow_left₀ two_ne_zero (abs_nonneg _) h2

theorem pf_abs_lt {num rad : ℚ} (c : ℚ) (h : 0 < rad) (hc : 0 ≤ c) :
    (|(num : ℝ) / Real.sqrt (rad : ℝ)| < c) ↔ num ^ 2 < c ^ 2 * rad := by
  rw [pf_val_abs, div_lt_iff₀ (pf_sqrt_pos h)]
  constructor
  · intro hlt
    have h2 := pow_lt_pow_left₀ hlt (abs_nonneg _) two_ne_zero
    rw [mul_pow, Real.sq_sqrt (by exact_mod_cast h.le), sq_abs] at h2
    exact_mod_cast h2
  · intro hlt
    have h2 : |(num : ℝ)| ^ 2 < ((c : ℝ) * Real.sqrt (rad : ℝ)) ^ 2 := by
      rw [mul_pow, Real.sq_sqrt (by exact_mod_cast h.le), sq_abs]
      exact_mod_cast hlt
    exact lt_of_pow_lt_pow_left₀ 2 (by positivity) h2

theorem pf_val_eq_one {num rad : ℚ} (h : 0 < rad) :
    ((num : ℝ) / Real.sqrt (rad : ℝ) = 1) ↔ 0 < num ∧ num ^ 2 = rad := by
  rw [div_eq_one_iff_eq (ne_of_gt (pf_sqrt_pos h))]
  constructor
  · intro he
    have hpos : (0 : ℝ) < (num : ℝ) := he ▸ pf_sqrt_pos h
    refine ⟨by exact_mod_cast hpos, ?_⟩
    have h2 : ((num : ℝ)) ^ 2 = (rad : ℝ) := by
      rw [he, Real.sq_sqrt (by exact_mod_cast h.le)]
    exact_mod_cast h2
  · rintro ⟨hpos, hsq⟩
    have h2 : ((num : ℝ)) ^ 2 = (rad : ℝ) := by exact_mod_cast hsq
    rw [← h2, Real.sqrt_sq (by exact_mod_cast hpos.le)]

/-- C4: for every non-NaN coefficient value x = num / sqrt rad, the
interpretation labels follow the specified threshold tables evaluated in
order: for tau — tau = 1 gives "Perfect agreement"; 0.4 <= abs tau < 1 gives
"Strong agreement"/"Strong disagreement" by sign; 0.1 <= abs tau < 0.4 gives
"Weak agreement"/"Weak disagreement"; abs tau < 0.1 gives "No association";
everything else gives "Perfect disagreement".  For rho the same structure
with strong threshold 0.5, labels positive/negative correlation, base
phrases "No correlation" and "Perfect positive/negative correlation". -/
theorem interpretation_follows_threshold_tables (v : PFloat) (x : ℝ)
    (hrad : 0 < v.rad) (hx : x = (v.num : ℝ) / Real.sqrt (v.rad : ℝ)) :
    (x = 1 → interpret_kendall v = "Perfect agreement") ∧
    (0.4 ≤ |x| → |x| < 1 → 0 < x → interpret_kendall v = "Strong agreement") ∧
    (0.4 ≤ |x| → |x| < 1 → x < 0 → interpret_kendall v = "Strong disagreement") ∧
    (0.1 ≤ |x| → |x| < 0.4 → 0 < x → interpret_kendall v = "Weak agreement") ∧
    (0.1 ≤ |x| → |x| < 0.4 → x < 0 → interpret_kendall v = "Weak disagreement") ∧
    (|x| < 0.1 → interpret_kendall v = "No association") ∧
    (x ≠ 1 → 1 ≤ |x| → interpret_kendall v = "Perfect disagreement") ∧
    (x = 1 → interpret_spearman v = "Perfect positive correlation") ∧
    (0.5 ≤ |x| → |x| < 1 → 0 < x → interpret_spearman v = "Strong positive correlation") ∧
    (0.5 ≤ |x| → |x| < 1 → x < 0 → interpret_spearman v = "Strong negative correlation") ∧
    (0.1 ≤ |x| → |x| < 0.5 → 0 < x → interpret_spearman v = "Weak positive correlation") ∧
    (0.1 ≤ |x| → |x| < 0.5 → x < 0 → interpret_spearman v = "Weak negative correlation") ∧
    (|x| < 0.1 → interpret_spearman v = "No correlation") ∧
    (x ≠ 1 → 1 ≤ |x| → interpret_spearman v = "Perfect negative correlation") := by
  have hone : x = 1 ↔ 0 < v.num ∧ v.num ^ 2 = v.rad := by
    rw [hx]; exact pf_val_eq_one hrad
  have hle : ∀ c : ℚ, 0 ≤ c → (((c : ℝ) ≤ |x|) ↔ c ^ 2 * v.rad ≤ v.num ^ 2) := by
    intro c hc; rw [hx]; exact pf_le_abs c hrad hc
  have hlt : ∀ c : ℚ, 0 ≤ c → ((|x| < (c : ℝ)) ↔ v.num ^ 2 < c ^ 2 * v.rad) := by
    intro c hc; rw [hx]; exact pf_abs_lt c hrad hc
  have hpos : (0 < x) ↔ 0 < v.num := by rw [hx]; exact pf_val_pos hrad
  have c04 : ((2/5 : ℚ) : ℝ) = 0.4 := by norm_num
  have c05 : ((1/2 : ℚ) : ℝ) = 0.5 := by norm_num
  have c01 : ((1/10 : ℚ) : ℝ) = 0.1 := by norm_num
  have c1 : ((1 : ℚ) : ℝ) = 1 := by norm_num
  have hle04 : (0.4 ≤ |x|) ↔ (2/5 : ℚ) ^ 2 * v.rad ≤ v.num ^ 2 := by
    rw [← c04]; exact hle (2/5) (by norm_num)
  have hle05 : (0.5 ≤ |x|) ↔ (1/2 : ℚ) ^ 2 * v.rad ≤ v.num ^ 2 := by
    rw [← c05]; exact hle (1/2) (by norm_num)
  have hle01 : (0.1 ≤ |x|) ↔ (1/10 : ℚ) ^ 2 * v.rad ≤ v.num ^ 2 := by
    rw [← c01]; exact hle (1/10) (by norm_num)
  have hlt04 : (|x| < 0.4) ↔ v.num ^ 2 < (2/5 : ℚ) ^ 2 * v.rad := by
    rw [← c04]; exact hlt (2/5) (by norm_num)
  have hlt05 : (|x| < 0.5) ↔ v.num ^ 2 < (1/2 : ℚ) ^ 2 * v.rad := by
    rw [← c05]; exact hlt (1/2) (by norm_num)
  have hlt01 : (|x| < 0.1) ↔ v.num ^ 2 < (1/10 : ℚ) ^ 2 * v.rad := by
    rw [← c01]; exact hlt (1/10) (by norm_num)
  have hlt1 : (|x| < 1) ↔ v.num ^ 2 < v.rad := by
    have := hlt 1 (by norm_num)
    rw [c1, one_pow, one_mul] at this
    exact this
  have habs1 : x = 1 → |x| = 1 := by intro h; rw [h, abs_one]
  refine ⟨?_, ?_, ?_, ?_, ?_, ?_, ?_, ?_, ?_, ?_, ?_, ?_, ?_, ?_⟩
  · intro h
    rw [interpret_kendall, if_pos ⟨hrad, (hone.mp h).1, (hone.mp h).2⟩]
  · intro h4 h1 hp
    rw [interpret_kendall,
      if_neg (fun hc => absurd (habs1 (hone.mpr ⟨hc.2.1, hc.2.2⟩)) (by intro he; rw [he] at h1; exact lt_irrefl 1 h1)),
      if_pos ⟨hrad, hle04.mp h4, hlt1.mp h1⟩, if_pos (hpos.mp hp)]
    rfl
  · intro h4 h1 hn
    rw [interpret_kendall,
      if_neg (fun hc => absurd (habs1 (hone.mpr ⟨hc.2.1, hc.2.2⟩)) (by intro he; rw [he] at h1; exact lt_irrefl 1 h1)),
      if_pos ⟨hrad, hle04.mp h4, hlt1.mp h1⟩,
      if_neg (fun hp => absurd hn (not_lt.mpr (hpos.mpr hp).le))]
    rfl
  · intro h1 h4 hp
    have hlt1x : |x| < 1 := lt_trans h4 (by norm_num)
    rw [interpret_kendall,
      if_neg (fun hc => absurd (habs1 (hone.mpr ⟨hc.2.1, hc.2.2⟩)) (by intro he; rw [he] at h4; norm_num at h4)),
      if_neg (fun hc => absurd (hle04.mpr hc.2.1) (not_le.mpr h4)),
      if_pos ⟨hrad, hle01.mp h1, hlt04.mp h4⟩, if_pos (hpos.mp hp)]
    rfl
  · intro h1 h4 hn
    rw [interpret_kendall,
      if_neg (fun hc => absurd (habs1 (hone.mpr ⟨hc.2.1, hc.2.2⟩)) (by intro he; rw [he] at h4; norm_num at h4)),
      if_neg (fun hc => absurd (hle04.mpr hc.2.1) (not_le.mpr h4)),
      if_pos ⟨hrad, hle01.mp h1, hlt04.mp h4⟩,
      if_neg (fun hp => absurd hn (not_lt.mpr (hpos.mpr hp).le))]
    rfl
  · intro h
    rw [interpret_kendall,
      if_neg (fun hc => absurd (habs1 (hone.mpr ⟨hc.2.1, hc.2.2⟩)) (by intro he; rw [he] at h; norm_num at h)),
      if_neg (fun hc => absurd (hle04.mpr hc.2.1) (not_le.mpr (lt_trans h (by norm_num)))),
      if_neg (fun hc => absurd (hle01.mpr hc.2.1) (not_le.mpr h)),
      if_pos ⟨hrad, hlt01.mp h⟩]
  · intro hne h1
    rw [interpret_kendall,
      if_neg (fun hc => absurd (hone.mpr ⟨hc.2.1, hc.2.2⟩) hne),
      if_neg (fun hc => absurd (hlt1.mpr hc.2.2) (not_lt.mpr h1)),
      if_neg (fun hc => absurd (hlt1.mpr (lt_trans hc.2.2 (by nlinarith [hc.1]))) (not_lt.mpr h1)),
      if_neg (fun hc => absurd (hlt1.mpr (lt_trans hc.2 (by nlinarith [hc.1]))) (not_lt.mpr h1))]
  · intro h
    rw [interpret_spearman, if_pos ⟨hrad, (hone.mp h).1, (hone.mp h).2⟩]
  · intro h5 h1 hp
    rw [interpret_spearman,
      if_neg (fun hc => absurd (habs1 (hone.mpr ⟨hc.2.1, hc.2.2⟩)) (by intro he; rw [he] at h1; exact lt_irrefl 1 h1)),
      if_pos ⟨hrad, hle05.mp h5, hlt1.mp h1⟩, if_pos (hpos.mp hp)]
    rfl
  · intro h5 h1 hn
    rw [interpret_spearman,
      if_neg (fun hc => absurd (habs1 (hone.mpr ⟨hc.2.1, hc.2.2⟩)) (by intro he; rw [he] at h1; exact lt_irrefl 1 h1)),
      if_pos ⟨hrad, hle05.mp h5, hlt1.mp h1⟩,
      if_neg (fun hp => absurd hn (not_lt.mpr (hpos.mpr hp).le))]
    rfl
  · intro h1 h5 hp
    rw [interpret_spearman,
      if_neg (fun hc => absurd (habs1 (hone.mpr ⟨hc.2.1, hc.2.2⟩)) (by intro he; rw [he] at h5; norm_num at h5)),
      if_neg (fun hc => absurd (hle05.mpr hc.2.1) (not_le.mpr h5)),
      if_pos ⟨hrad, hle01.mp h1, hlt05.mp h5⟩, if_pos (hpos.mp hp)]
    rfl
  · intro h1 h5 hn
    rw [interpret_spearman,
      if_neg (fun hc => absurd (habs1 (hone.mpr ⟨hc.2.1, hc.2.2⟩)) (by intro he; rw [he] at h5; norm_num at h5)),
      if_neg (fun hc => absurd (hle05.mpr hc.2.1) (not_le.mpr h5)),
      if_pos ⟨hrad, hle01.mp h1, hlt05.mp h5⟩,
      if_neg (fun hp => absurd hn (not_lt.mpr (hpos.mpr hp).le))]
    rfl
  · intro h
    rw [interpret_spearman,
      if_neg (fun hc => absurd (habs1 (hone.mpr ⟨hc.2.1, hc.2.2⟩)) (by intro he; rw [he] at h; norm_num at h)),
      if_neg (fun hc => absurd (hle05.mpr hc.2.1) (not_le.mpr (lt_trans h (by norm_num)))),
      if_neg (fun hc => absurd (hle01.mpr hc.2.1) (not_le.mpr h)),
      if_pos ⟨hrad, hlt01.mp h⟩]
  · intro hne h1
    rw [interpret_spearman,
      if_neg (fun hc => absurd (hone.mpr ⟨hc.2.1, hc.2.2⟩) hne),
      if_neg (fun hc => absurd (hlt1.mpr hc.2.2) (not_lt.mpr h1)),
      if_neg (fun hc => absurd (hlt1.mpr (lt_trans hc.2.2 (by nlinarith [hc.1]))) (not_lt.mpr h1)),
      if_neg (fun hc => absurd (hlt1.mpr (lt_trans hc.2 (by nlinarith [hc.1]))) (not_lt.mpr h1))]

/-- Witness: the interpretation-tables theorem applied at the concrete
values 1 / sqrt 1 = 1 and (-1) / sqrt 4 = -0.5. -/
theorem interpretation_follows_threshold_tables_witness :
    interpret_kendall ⟨1, 1⟩ = "Perfect agreement" ∧
    interpret_spearman ⟨-1, 4⟩ = "Strong negative correlation" := by
  have hs4 : Real.sqrt (((4 : ℚ) : ℝ)) = 2 := by
    rw [show (((4 : ℚ) : ℝ)) = 2 ^ 2 by norm_num, Real.sqrt_sq (by norm_num)]
  have h1 := interpretation_follows_threshold_tables ⟨1, 1⟩ 1
    (by show (0 : ℚ) < 1; norm_num)
    (by show (1 : ℝ) = ((1 : ℚ) : ℝ) / Real.sqrt (((1 : ℚ) : ℝ)); simp)
  have h2 := interpretation_follows_threshold_tables ⟨-1, 4⟩ (-(1/2))
    (by show (0 : ℚ) < 4; norm_num)
    (by show (-(1/2) : ℝ) = ((-1 : ℚ) : ℝ) / Real.sqrt (((4 : ℚ) : ℝ)); rw [hs4]; norm_num)
  have habs : |(-(1/2) : ℝ)| = 1/2 := by
    rw [abs_neg]; exact abs_of_nonneg (by norm_num)
  exact ⟨h1.1 rfl,
    h2.2.2.2.2.2.2.2.2.2.1 (by rw [habs]; norm_num) (by rw [habs]; norm_num) (by norm_num)⟩

unseal Rat.mul Rat.add Rat.sub Rat.inv Rat.ofScientific in
/-- C10: a NaN coefficient (`rad = 0` in the representation) makes every
threshold comparison false, so the final else branch is taken:
`interpret_kendall` returns "Perfect disagreement" and `interpret_spearman`
"Perfect negative correlation"; and `analyze` embeds these labels in its
result instead of failing, as on the constant-column example (A = 3,3,3
against B = 1,2,3, where scipy yields NaN for both coefficients). -/
theorem nan_coefficient_interpretation (v : PFloat) (h : v.rad = 0) :
    (interpret_kendall v = "Perfect disagreement" ∧
      interpret_spearman v = "Perfect negative correlation") ∧
    analyze aConst "A" "B" = Except.ok rConst ∧
    rConst.kendall_tau.rad = 0 ∧
    rConst.spearman_rho.rad = 0 ∧
    rConst.kendall_interpretation = "Perfect disagreement" ∧
    rConst.spearman_interpretation = "Perfect negative correlation" := by
  refine ⟨⟨?_, ?_⟩, rfl, by decide, by decide, by decide, by decide⟩
  · rw [interpret_kendall,
      if_neg (fun hc => by rw [h] at hc; exact lt_irrefl 0 hc.1),
      if_neg (fun hc => by rw [h] at hc; exact lt_irrefl 0 hc.1),
      if_neg (fun hc => by rw [h] at hc; exact lt_irrefl 0 hc.1),
      if_neg (fun hc => by rw [h] at hc; exact lt_irrefl 0 hc.1)]
  · rw [interpret_spearman,
      if_neg (fun hc => by rw [h] at hc; exact lt_irrefl 0 hc.1),
      if_neg (fun hc => by rw [h] at hc; exact lt_irrefl 0 hc.1),
      if_neg (fun hc => by rw [h] at hc; exact lt_irrefl 0 hc.1),
      if_neg (fun hc => by rw [h] at hc; exact lt_irrefl 0 hc.1)]

/-- Witness: the NaN interpretation theorem applied at the concrete NaN
representation. -/
theorem nan_coefficient_interpretation_witness :
    interpret_kendall PFloat.nan = "Perfect disagreement" ∧
    interpret_spearman PFloat.nan = "Perfect negative correlation" :=
  ⟨(nan_coefficient_interpretation PFloat.nan rfl).1.1,
   (nan_coefficient_interpretation PFloat.nan rfl).1.2⟩

/-- C5: analyze fails with the no-data error whenever no table is loaded,
with the unknown-column error whenever either requested name is absent from
the loaded table, and a failing call returns no partial result (the outcome
is a single error value, never a result record). -/
theorem analyze_error_contract :
    (∀ (a : LikertAnalyzer) (c1 c2 : String), a.data = none →
      analyze a c1 c2 = .error .noDataLoaded) ∧
    (∀ (a : LikertAnalyzer) (t : DataTable) (c1 c2 : String),
      a.data = some t → t.col? c1 = none →
      analyze a c1 c2 = .error (.unknownColumn c1)) ∧
    (∀ (a : LikertAnalyzer) (t : DataTable) (c1 c2 : String) (cA : List (Option ℚ)),
      a.data = some t → t.col? c1 = some cA → t.col? c2 = none →
      analyze a c1 c2 = .error (.unknownColumn c2)) ∧
    (∀ (a : LikertAnalyzer) (c1 c2 : String) (e : AnalyzeError) (r : AnalysisResults),
      analyze a c1 c2 = .error e → analyze a c1 c2 ≠ .ok r) := by
  refine ⟨?_, ?_, ?_, ?_⟩
  · intro a c1 c2 h
    simp [analyze, h]
  · intro a t c1 c2 h1 h2
    simp [analyze, h1, h2]
  · intro a t c1 c2 cA h1 h2 h3
    simp [analyze, h1, h2, h3]
  · intro a c1 c2 e r he hok
    rw [he] at hok
    exact Except.noConfusion hok

/-- Witness: the error contract applied to a fresh analyzer and to the
Likert example table, which has no column "C". -/
theorem analyze_error_contract_witness :
    analyze LikertAnalyzer.init "A" "B" = .error .noDataLoaded ∧
    analyze aLikert "C" "B" = .error (.unknownColumn "C") ∧
    analyze aLikert "A" "C" = .error (.unknownColumn "C") :=
  ⟨analyze_error_contract.1 LikertAnalyzer.init "A" "B" rfl,
   analyze_error_contract.2.1 aLikert tblLikert "C" "B" rfl rfl,
   analyze_error_contract.2.2.1 aLikert tblLikert "A" "C" (vals5.map some) rfl rfl rfl⟩

/-- C9: when the two selected columns keep a different number of values
after each drops its own missing cells, analyze raises the scipy size error
and returns no result; a successful analyze therefore presupposes the two
filtered series have equal length. -/
theorem analyze_rejects_unequal_lengths :
    (∀ (a : LikertAnalyzer) (t : DataTable) (c1 c2 : String)
      (cA cB : List (Option ℚ)),
      a.data = some t → t.col? c1 = some cA → t.col? c2 = some cB →
      (dropna cA).length ≠ (dropna cB).length →
      analyze a c1 c2 = .error .scipyLengthMismatch) ∧
    (∀ (a : LikertAnalyzer) (t : DataTable) (c1 c2 : String)
      (cA cB : List (Option ℚ)) (r : AnalysisResults),
      a.data = some t → t.col? c1 = some cA → t.col? c2 = some cB →
      analyze a c1 c2 = .ok r →
      (dropna cA).length = (dropna cB).length) := by
  constructor
  · intro a t c1 c2 cA cB h1 h2 h3 hne
    simp [analyze, h1, h2, h3, hne]
  · intro a t c1 c2 cA cB r h1 h2 h3 hok
    by_contra hne
    simp [analyze, h1, h2, h3, hne] at hok

/-- Witness: the unequal-length theorem applied to the uneven example table
(column A keeps 2 values, column B keeps 3). -/
theorem analyze_rejects_unequal_lengths_witness :
    analyze aUneven "A" "B" = .error .scipyLengthMismatch :=
  analyze_rejects_unequal_lengths.1 aUneven tblUneven "A" "B"
    [some 1, none, some 3] [some 1, some 2, some 3] rfl rfl rfl (by decide)

/-- C2: on every successful analysis, total_ties equals
(sample_size - distinct values of column A's filtered series) +
(sample_size - distinct values of column B's filtered series), with
sample_size the single reference count of the analysis. -/
theorem analyze_total_ties_formula (a : LikertAnalyzer) (t : DataTable)
    (c1 c2 : String) (cA cB : List (Option ℚ)) (r : AnalysisResults)
    (h1 : a.data = some t) (h2 : t.col? c1 = some cA) (h3 : t.col? c2 = some cB)
    (hr : analyze a c1 c2 = .ok r) :
    r.total_ties = (r.sample_size - (dropna cA).dedup.length) +
      (r.sample_size - (dropna cB).dedup.length) := by
  simp only [analyze, h1, h2, h3] at hr
  split at hr
  · rename_i hlen
    injection hr with hrec
    subst hrec
    simp only []
    rw [hlen]
  · exact Except.noConfusion hr

/-- Witness: the total_ties formula evaluated on the mixed-missing example
(3 kept values in each column, all distinct, hence 0 ties). -/
theorem analyze_total_ties_formula_witness :
    rMixed.total_ties = (rMixed.sample_size - (dropna colAMixed).dedup.length) +
      (rMixed.sample_size - (dropna colBMixed).dedup.length) :=
  analyze_total_ties_formula aMixed tblMixed "A" "B" colAMixed colBMixed rMixed
    rfl rfl rfl rfl

unseal Rat.mul Rat.add Rat.sub Rat.inv Rat.ofScientific in
/-- C3: the recommendation is a pure function of (sample_size, total_ties)
— the fields of every successful result are exactly `recommendation` applied
to its sample_size and total_ties — evaluated in first-match-wins order:
sample_size < 30 gives Kendall with the small-sample reason; otherwise
total_ties > 0.2 * sample_size gives Kendall with the interpolated
high-ties reason; otherwise Spearman.  In particular n = 10 (any ties)
recommends Kendall, n = 100 with 0 ties recommends Spearman, and n = 100
with 25 ties recommends Kendall. -/
theorem recommendation_rule :
    (∀ (a : LikertAnalyzer) (c1 c2 : String) (r : AnalysisResults),
      analyze a c1 c2 = .ok r →
      (r.recommended_method, r.recommendation_reason) =
        recommendation r.sample_size r.total_ties) ∧
    (∀ n t : ℕ, n < 30 →
      recommendation n t = ("Kendall\x27s tau", "Small sample size (n < 30)")) ∧
    (∀ n t : ℕ, 30 ≤ n → (n : ℚ) * 0.2 < (t : ℚ) →
      recommendation n t = ("Kendall\x27s tau",
        "High number of ties (" ++ toString t ++ " ties in " ++
          toString n ++ " observations)")) ∧
    (∀ n t : ℕ, 30 ≤ n → (t : ℚ) ≤ (n : ℚ) * 0.2 →
      recommendation n t =
        ("Spearman\x27s rho", "Larger sample size with fewer ties")) ∧
    (∀ t : ℕ, recommendation 10 t =
      ("Kendall\x27s tau", "Small sample size (n < 30)")) ∧
    recommendation 100 0 = ("Spearman\x27s rho", "Larger sample size with fewer ties") ∧
    recommendation 100 25 = ("Kendall\x27s tau",
      "High number of ties (25 ties in 100 observations)") := by
  refine ⟨?_, ?_, ?_, ?_, ?_, by decide, by decide⟩
  · intro a c1 c2 r hr
    rcases ha : a.data with _ | t
    · simp [analyze, ha] at hr
    rcases hc1 : t.col? c1 with _ | cA
    · simp [analyze, ha, hc1] at hr
    rcases hc2 : t.col? c2 with _ | cB
    · simp [analyze, ha, hc1, hc2] at hr
    simp only [analyze, ha, hc1, hc2] at hr
    split at hr
    · injection hr with h
      subst h
      rfl
    · exact Except.noConfusion hr
  · intro n t h
    rw [recommendation, if_pos h]
  · intro n t h30 ht
    rw [recommendation, if_neg (not_lt.mpr h30), if_pos ht]
  · intro n t h30 ht
    rw [recommendation, if_neg (not_lt.mpr h30), if_neg (not_lt.mpr ht)]
  · intro t
    rw [recommendation, if_pos (by norm_num)]

/-- Witness: the recommendation rule applied to the concrete analysis of the
identical-columns table and at concrete (n, ties) pairs for each branch. -/
theorem recommendation_rule_witness :
    (rLikert.recommended_method, rLikert.recommendation_reason) =
      recommendation rLikert.sample_size rLikert.total_ties ∧
    recommendation 10 7 = ("Kendall\x27s tau", "Small sample size (n < 30)") ∧
    recommendation 31 10 = ("Kendall\x27s tau",
      "High number of ties (10 ties in 31 observations)") ∧
    recommendation 40 8 = ("Spearman\x27s rho", "Larger sample size with fewer ties") :=
  ⟨recommendation_rule.1 aLikert "A" "B" rLikert rfl,
   recommendation_rule.2.1 10 7 (by norm_num),
   recommendation_rule.2.2.1 31 10 (by norm_num) (by norm_num),
   recommendation_rule.2.2.2.1 40 8 (by norm_num) (by norm_num)⟩

/-- C1 counterexample: on the table whose columns are missing values in
different rows (A = 1, 2, NaN, 4 and B = 1, NaN, 3, 4), analyze succeeds and
reports sample_size 3, while only 2 rows have a value in both columns. -/
theorem analyze_sample_size_counterexample :
    analyze aMixed "A" "B" = Except.ok rMixed ∧
    rMixed.sample_size = 3 ∧
    specPairedRowCount colAMixed colBMixed = 2 ∧
    rMixed.sample_size ≠ specPairedRowCount colAMixed colBMixed :=
  ⟨rfl, by decide, by decide, by decide⟩

/-- C1 (amended): on every successful analysis, sample_size equals the count
of non-missing values of the first selected column — which also equals that
of the second column, since analyze only succeeds when the two filtered
lengths agree — but not in general the count of rows in which neither column
has a missing value. -/
theorem analyze_sample_size_first_column (a : LikertAnalyzer) (t : DataTable)
    (c1 c2 : String) (cA cB : List (Option ℚ)) (r : AnalysisResults)
    (h1 : a.data = some t) (h2 : t.col? c1 = some cA) (h3 : t.col? c2 = some cB)
    (hr : analyze a c1 c2 = .ok r) :
    r.sample_size = (dropna cA).length ∧ r.sample_size = (dropna cB).length := by
  simp only [analyze, h1, h2, h3] at hr
  split at hr
  · rename_i hlen
    injection hr with h
    subst h
    exact ⟨rfl, hlen⟩
  · exact Except.noConfusion hr

/-- Witness: the amended sample_size characterization on the mixed-missing
example. -/
theorem analyze_sample_size_first_column_witness :
    rMixed.sample_size = (dropna colAMixed).length ∧
    rMixed.sample_size = (dropna colBMixed).length :=
  analyze_sample_size_first_column aMixed tblMixed "A" "B" colAMixed colBMixed
    rMixed rfl rfl rfl rfl

/-- C8: load_data fails with the unsupported-format error exactly when the
extension (lowercased) is none of .csv, .xlsx, .xls; on a successful parse
it returns the column names in source order, installs the parsed table and
its column list, and the outcome never depends on the previous state. -/
theorem load_data_contract :
    (∀ (a : LikertAnalyzer) (src : Source),
      ¬(pyLower src.suffix = ".csv" ∨ pyLower src.suffix = ".xlsx" ∨
        pyLower src.suffix = ".xls") →
      load_data a src = .error .unsupportedFormat) ∧
    (∀ (a : LikertAnalyzer) (src : Source),
      load_data a src = .error .unsupportedFormat →
      ¬(pyLower src.suffix = ".csv" ∨ pyLower src.suffix = ".xlsx" ∨
        pyLower src.suffix = ".xls")) ∧
    (∀ (a : LikertAnalyzer) (src : Source) (t : DataTable),
      src.parsed = .ok t →
      (pyLower src.suffix = ".csv" ∨ pyLower src.suffix = ".xlsx" ∨
        pyLower src.suffix = ".xls") →
      load_data a src = .ok (t.cols.map Prod.fst, ⟨some t, t.cols.map Prod.fst⟩)) ∧
    (∀ (a a' : LikertAnalyzer) (src : Source), load_data a src = load_data a' src) := by
  refine ⟨?_, ?_, ?_, fun a a' src => rfl⟩
  · intro a src h
    rw [load_data, if_neg (fun hc => h (Or.inl hc)),
      if_neg (fun hc => h (Or.inr hc))]
  · intro a src h hin
    rcases hp : src.parsed with m | t
    · rcases hin with hc | hc | hc <;>
        simp [load_data, hc, hp] at h
    · rcases hin with hc | hc | hc <;>
        simp [load_data, hc, hp] at h
  · intro a src t hp hin
    rcases hin with hc | hc | hc
    · simp [load_data, hc, hp]
    · simp [load_data, hc, hp]
    · simp [load_data, hc, hp]

/-- Witness: load_data at a concrete unsupported source, a concrete csv
source, and two different prior states. -/
theorem load_data_contract_witness :
    load_data LikertAnalyzer.init ⟨".txt", .ok tblLikert⟩ = .error .unsupportedFormat ∧
    load_data aConst ⟨".csv", .ok tblLikert⟩ =
      .ok (tblLikert.cols.map Prod.fst, ⟨some tblLikert, tblLikert.cols.map Prod.fst⟩) ∧
    load_data aConst ⟨".xls", .ok tblLikert⟩ = load_data aMixed ⟨".xls", .ok tblLikert⟩ :=
  ⟨load_data_contract.1 LikertAnalyzer.init ⟨".txt", .ok tblLikert⟩ (by decide),
   load_data_contract.2.2.1 aConst ⟨".csv", .ok tblLikert⟩ tblLikert rfl (by left; rfl),
   load_data_contract.2.2.2 aConst aMixed ⟨".xls", .ok tblLikert⟩⟩

/-- C7: analyze is deterministic and blind to the random stream: its result
depends only on the analyzer state and not on the generator state, the call
leaves the world (analyzer and stream) unchanged, a second call on the
unchanged world returns the identical record, and the jitter stream is
consumed only by the visualization path (which draws one value per kept
observation of the first column). -/
theorem analyze_deterministic_no_jitter :
    (∀ (a : LikertAnalyzer) (r1 r2 : List ℚ) (c1 c2 : String),
      (analyzeW ⟨a, r1⟩ c1 c2).1 = (analyzeW ⟨a, r2⟩ c1 c2).1) ∧
    (∀ (w : World) (c1 c2 : String), (analyzeW w c1 c2).2 = w) ∧
    (∀ (w : World) (c1 c2 : String),
      (analyzeW ((analyzeW w c1 c2).2) c1 c2).1 = (analyzeW w c1 c2).1) ∧
    (∀ (a : LikertAnalyzer) (rng : List ℚ) (c1 c2 : String) (t : DataTable)
      (cA cB : List (Option ℚ)),
      a.data = some t → t.col? c1 = some cA → t.col? c2 = some cB →
      dropna cA ≠ [] →
      (create_visualizationsW ⟨a, rng⟩ c1 c2).2.rng =
        rng.drop (dropna cA).length) := by
  refine ⟨fun a r1 r2 c1 c2 => rfl, fun w c1 c2 => rfl, fun w c1 c2 => rfl, ?_⟩
  intro a rng c1 c2 t cA cB h1 h2 h3 hne
  simp only [create_visualizationsW, h1, h2, h3]
  rw [if_neg (by simpa using hne)]
  split <;> rfl

/-- Witness: jitter-blindness of analyze and stream consumption of the
visualization path at concrete states. -/
theorem analyze_deterministic_no_jitter_witness :
    (analyzeW ⟨aLikert, [1, 2]⟩ "A" "B").1 = (analyzeW ⟨aLikert, [7]⟩ "A" "B").1 ∧
    (analyzeW ⟨aLikert, [1, 2]⟩ "A" "B").2 = ⟨aLikert, [1, 2]⟩ ∧
    (create_visualizationsW ⟨aLikert, [1, 2, 3, 4, 5, 6]⟩ "A" "B").2.rng =
      [1, 2, 3, 4, 5, 6].drop (dropna (vals5.map some)).length :=
  ⟨analyze_deterministic_no_jitter.1 aLikert [1, 2] [7] "A" "B",
   analyze_deterministic_no_jitter.2.1 ⟨aLikert, [1, 2]⟩ "A" "B",
   analyze_deterministic_no_jitter.2.2.2 aLikert [1, 2, 3, 4, 5, 6] "A" "B"
     tblLikert (vals5.map some) (vals5.map some) rfl rfl rfl (by decide)⟩

/-! ## Helper lemmas for the identical-columns claim -/

theorem zip_self (l : List α) : l.zip l = l.map fun x => (x, x) := by
  induction l with
  | nil => rfl
  | cons x xs ih =>
    show (x, x) :: xs.zip xs = (x, x) :: xs.map _
    exact congrArg _ ih

theorem pairsOf_map (f : α → β) (l : List α) :
    pairsOf (l.map f) = (pairsOf l).map (Prod.map f f) := by
  induction l with
  | nil => rfl
  | cons x xs ih =>
    simp only [List.map_cons, pairsOf, List.map_append, List.map_map, ih]
    simp [Function.comp_def, Prod.map]

theorem pairsOf_exists_ne {l : List α} {u w : α} (hu : u ∈ l) (hw : w ∈ l)
    (hne : u ≠ w) : ∃ p ∈ pairsOf l, p.1 ≠ p.2 := by
  induction l with
  | nil => cases hu
  | cons x xs ih =>
    rcases List.mem_cons.mp hu with hux | hu2
    · rcases List.mem_cons.mp hw with hwx | hw2
      · exact absurd (hux.trans hwx.symm) hne
      · refine ⟨(x, w), ?_, ?_⟩
        · rw [pairsOf]
          exact List.mem_append_left _ (List.mem_map_of_mem _ hw2)
        · subst hux
          exact hne
    · rcases List.mem_cons.mp hw with hwx | hw2
      · refine ⟨(x, u), ?_, ?_⟩
        · rw [pairsOf]
          exact List.mem_append_left _ (List.mem_map_of_mem _ hu2)
        · subst hwx
          exact hne.symm
      · obtain ⟨p, hp, hpn⟩ := ih hu2 hw2
        refine ⟨p, ?_, hpn⟩
        rw [pairsOf]
        exact List.mem_append_right _ hp

theorem zipWith_mul_self (r : List ℚ) :
    List.zipWith (fun x y => x * y) r r = r.map fun x => x ^ 2 := by
  induction r with
  | nil => rfl
  | cons x xs ih =>
    show (x * x) :: List.zipWith _ xs xs = (x ^ 2) :: xs.map _
    rw [ih, sq]

theorem sum_map_sub_sq (x : ℚ) (xs : List ℚ) :
    (xs.map fun y => (x - y) ^ 2).sum =
      (xs.length : ℚ) * x ^ 2 - 2 * x * xs.sum + (xs.map fun y => y ^ 2).sum := by
  induction xs with
  | nil => simp
  | cons y ys ih =>
    simp only [List.map_cons, List.sum_cons, ih, List.length_cons]
    push_cast
    ring

theorem scatter_identity (r : List ℚ) :
    (r.length : ℚ) * (r.map fun x => x ^ 2).sum - r.sum ^ 2 =
      ((pairsOf r).map fun p => (p.1 - p.2) ^ 2).sum := by
  induction r with
  | nil => simp [pairsOf]
  | cons x xs ih =>
    simp only [pairsOf, List.map_append, List.sum_append, List.map_map]
    have hcomp : ((fun p : ℚ × ℚ => (p.1 - p.2) ^ 2) ∘ fun y => (x, y)) =
        fun y => (x - y) ^ 2 := rfl
    rw [hcomp, sum_map_sub_sq, ← ih]
    simp only [List.length_cons, List.map_cons, List.sum_cons]
    push_cast
    ring

theorem sq_pair_sum_pos {r : List ℚ} (h : ∃ p ∈ pairsOf r, p.1 ≠ p.2) :
    0 < ((pairsOf r).map fun p => (p.1 - p.2) ^ 2).sum := by
  obtain ⟨p, hp, hne⟩ := h
  have hpos : 0 < (p.1 - p.2) ^ 2 := by
    rw [sq]
    exact mul_self_pos.mpr (sub_ne_zero.mpr hne)
  have hmem : (p.1 - p.2) ^ 2 ∈ (pairsOf r).map fun p => (p.1 - p.2) ^ 2 :=
    List.mem_map_of_mem _ hp
  have hnn : ∀ x ∈ (pairsOf r).map fun p => (p.1 - p.2) ^ 2, 0 ≤ x := by
    intro x hx
    obtain ⟨p2, _, rfl⟩ := List.mem_map.mp hx
    positivity
  have hle := List.single_le_sum hnn _ hmem
  exact lt_of_lt_of_le hpos hle

theorem kendall_self (l : List ℚ) (h2 : ∃ u ∈ l, ∃ w ∈ l, u ≠ w) :
    ∃ c : ℕ, 0 < c ∧ kendalltau (l.zip l) = ⟨(c : ℚ), (c : ℚ) ^ 2⟩ := by
  have hsplit : (pairsOf l).length =
      (pairsOf l).countP (fun p => decide (p.1 = p.2)) +
      (pairsOf l).countP (fun p => !decide (p.1 = p.2)) := by
    rw [List.length_eq_countP_add_countP (fun p => decide (p.1 = p.2))]
    congr 1
    exact List.countP_congr (fun p _ => by simp)
  have hCpos : 0 < (pairsOf l).countP (fun p => !decide (p.1 = p.2)) := by
    obtain ⟨u, hu, w, hw, hne⟩ := h2
    obtain ⟨p, hp, hpn⟩ := pairsOf_exists_ne hu hw hne
    rw [List.countP_pos_iff]
    exact ⟨p, hp, by simpa using hpn⟩
  refine ⟨(pairsOf l).countP (fun p => !decide (p.1 = p.2)), hCpos, ?_⟩
  rw [zip_self]
  simp only [kendalltau, pairsOf_map, List.countP_map, List.length_map]
  simp only [Function.comp_def, Prod.map]
  have hcon : List.countP (fun x : ℚ × ℚ => decide (0 < (x.1 - x.2) * (x.1 - x.2)))
      (pairsOf l) = List.countP (fun p => !decide (p.1 = p.2)) (pairsOf l) :=
    List.countP_congr (fun p _ => by simp [mul_self_pos, sub_ne_zero])
  have hdis : List.countP (fun x : ℚ × ℚ => decide ((x.1 - x.2) * (x.1 - x.2) < 0))
      (pairsOf l) = 0 :=
    List.countP_eq_zero.mpr (fun p _ => by simp [not_lt, mul_self_nonneg])
  rw [hcon, hdis, hsplit]
  congr 1
  · simp
  · push_cast
    ring

theorem countP_add_le_countP {l : List α} {p q r : α → Bool}
    (hpr : ∀ a ∈ l, p a = true → r a = true)
    (hqr : ∀ a ∈ l, q a = true → r a = true)
    (hpq : ∀ a ∈ l, ¬(p a = true ∧ q a = true)) :
    l.countP p + l.countP q ≤ l.countP r := by
  induction l with
  | nil => simp
  | cons x xs ih =>
    have ih2 := ih (fun a ha => hpr a (List.mem_cons_of_mem _ ha))
      (fun a ha => hqr a (List.mem_cons_of_mem _ ha))
      (fun a ha => hpq a (List.mem_cons_of_mem _ ha))
    have hx := List.mem_cons_self x xs
    simp only [List.countP_cons]
    by_cases hp : p x = true
    · have hr := hpr x hx hp
      have hq : ¬ q x = true := fun hq => hpq x hx ⟨hp, hq⟩
      simp [hp, hq, hr]
      omega
    · by_cases hq : q x = true
      · have hr := hqr x hx hq
        simp [hp, hq, hr]
        omega
      · cases hr : r x <;> simp [hp, hq, hr] <;> omega

theorem midrank_lt_midrank {l : List ℚ} {u w : ℚ} (hu : u ∈ l) (hw : w ∈ l)
    (hlt : u < w) :
    (l.countP (fun y => decide (y < u)) : ℚ) +
      ((l.countP (fun y => decide (y = u)) : ℚ) + 1) / 2 <
    (l.countP (fun y => decide (y < w)) : ℚ) +
      ((l.countP (fun y => decide (y = w)) : ℚ) + 1) / 2 := by
  have hEu : 0 < l.countP (fun y => decide (y = u)) :=
    List.countP_pos_iff.mpr ⟨u, hu, by simp⟩
  have hEw : 0 < l.countP (fun y => decide (y = w)) :=
    List.countP_pos_iff.mpr ⟨w, hw, by simp⟩
  have hLE : l.countP (fun y => decide (y < u)) + l.countP (fun y => decide (y = u)) ≤
      l.countP (fun y => decide (y < w)) := by
    apply countP_add_le_countP
    · intro a _ ha
      simp only [decide_eq_true_eq] at ha ⊢
      exact lt_trans ha hlt
    · intro a _ ha
      simp only [decide_eq_true_eq] at ha ⊢
      exact ha ▸ hlt
    · intro a _ hb
      obtain ⟨h1a, h2a⟩ := hb
      simp only [decide_eq_true_eq] at h1a h2a
      rw [h2a] at h1a
      exact lt_irrefl u h1a
  have hEu2 : (1 : ℚ) ≤ (l.countP (fun y => decide (y = u)) : ℚ) := by
    exact_mod_cast hEu
  have hEw2 : (1 : ℚ) ≤ (l.countP (fun y => decide (y = w)) : ℚ) := by
    exact_mod_cast hEw
  have hLE2 : (l.countP (fun y => decide (y < u)) : ℚ) +
      (l.countP (fun y => decide (y = u)) : ℚ) ≤
      (l.countP (fun y => decide (y < w)) : ℚ) := by
    exact_mod_cast hLE
  linarith

theorem spearman_self (l : List ℚ) (h2 : ∃ u ∈ l, ∃ w ∈ l, u ≠ w) :
    ∃ q : ℚ, 0 < q ∧ spearmanr l l = ⟨q, q ^ 2⟩ := by
  refine ⟨((midranks l).length : ℚ) * ((midranks l).map fun x => x ^ 2).sum -
      (midranks l).sum ^ 2, ?_, ?_⟩
  · rw [scatter_identity]
    apply sq_pair_sum_pos
    obtain ⟨u, hu, w, hw, hne⟩ := h2
    rcases hne.lt_or_lt with hlt | hlt
    · exact pairsOf_exists_ne (List.mem_map_of_mem _ hu) (List.mem_map_of_mem _ hw)
        (ne_of_lt (midrank_lt_midrank hu hw hlt))
    · exact pairsOf_exists_ne (List.mem_map_of_mem _ hw) (List.mem_map_of_mem _ hu)
        (ne_of_lt (midrank_lt_midrank hw hu hlt))
  · simp only [spearmanr, pearsonRep, zipWith_mul_self]
    congr 1
    · ring
    · ring

unseal Rat.mul Rat.add Rat.sub Rat.inv Rat.ofScientific in
/-- C6: for every pair of elementwise-identical columns with no missing
values and at least two distinct values, analyze returns kendall_tau = 1 and
spearman_rho = 1 (as values num / sqrt rad), interpreted as "Perfect
agreement" and "Perfect positive correlation"; and on the concrete table
A = B = 1..5 it returns both coefficients 1 with sample_size 5, total_ties 0,
recommended method Kendall and the small-sample reason. -/
theorem identical_columns_perfect :
    (∀ (a : LikertAnalyzer) (t : DataTable) (c1 c2 : String) (vals : List ℚ)
      (r : AnalysisResults),
      a.data = some t → t.col? c1 = some (vals.map some) →
      t.col? c2 = some (vals.map some) → (∃ u ∈ vals, ∃ w ∈ vals, u ≠ w) →
      analyze a c1 c2 = .ok r →
      (r.kendall_tau.num : ℝ) / Real.sqrt (r.kendall_tau.rad : ℝ) = 1 ∧
      (r.spearman_rho.num : ℝ) / Real.sqrt (r.spearman_rho.rad : ℝ) = 1 ∧
      r.kendall_interpretation = "Perfect agreement" ∧
      r.spearman_interpretation = "Perfect positive correlation") ∧
    (analyze aLikert "A" "B" = .ok rLikert ∧
      rLikert.sample_size = 5 ∧
      rLikert.total_ties = 0 ∧
      rLikert.recommended_method = "Kendall\x27s tau" ∧
      rLikert.recommendation_reason = "Small sample size (n < 30)" ∧
      (rLikert.kendall_tau.num : ℝ) / Real.sqrt (rLikert.kendall_tau.rad : ℝ) = 1 ∧
      (rLikert.spearman_rho.num : ℝ) / Real.sqrt (rLikert.spearman_rho.rad : ℝ) = 1 ∧
      rLikert.kendall_interpretation = "Perfect agreement" ∧
      rLikert.spearman_interpretation = "Perfect positive correlation") := by
  have main : ∀ (a : LikertAnalyzer) (t : DataTable) (c1 c2 : String)
      (vals : List ℚ) (r : AnalysisResults),
      a.data = some t → t.col? c1 = some (vals.map some) →
      t.col? c2 = some (vals.map some) → (∃ u ∈ vals, ∃ w ∈ vals, u ≠ w) →
      analyze a c1 c2 = .ok r →
      (r.kendall_tau.num : ℝ) / Real.sqrt (r.kendall_tau.rad : ℝ) = 1 ∧
      (r.spearman_rho.num : ℝ) / Real.sqrt (r.spearman_rho.rad : ℝ) = 1 ∧
      r.kendall_interpretation = "Perfect agreement" ∧
      r.spearman_interpretation = "Perfect positive correlation" := by
    intro a t c1 c2 vals r h1 h2 h3 hdist hr
    have hd : dropna (vals.map some) = vals := by simp [dropna]
    simp only [analyze, h1, h2, h3, hd] at hr
    split at hr
    · injection hr with hrec
      subst hrec
      obtain ⟨c, hc, hk⟩ := kendall_self vals hdist
      obtain ⟨q, hq, hs⟩ := spearman_self vals hdist
      have hcq : (0 : ℚ) < (c : ℚ) := by exact_mod_cast hc
      refine ⟨?_, ?_, ?_, ?_⟩
      · show ((kendalltau (vals.zip vals)).num : ℝ) /
            Real.sqrt ((kendalltau (vals.zip vals)).rad : ℝ) = 1
        rw [hk]
        push_cast
        rw [Real.sqrt_sq (by positivity)]
        exact div_self (by exact_mod_cast hc.ne')
      · show ((spearmanr vals vals).num : ℝ) /
            Real.sqrt ((spearmanr vals vals).rad : ℝ) = 1
        rw [hs]
        push_cast
        rw [Real.sqrt_sq (by exact_mod_cast hq.le)]
        exact div_self (by exact_mod_cast hq.ne')
      · show interpret_kendall (kendalltau (vals.zip vals)) = "Perfect agreement"
        rw [hk, interpret_kendall, if_pos ⟨pow_pos hcq 2, hcq, rfl⟩]
      · show interpret_spearman (spearmanr vals vals) = "Perfect positive correlation"
        rw [hs, interpret_spearman, if_pos ⟨pow_pos hq 2, hq, rfl⟩]
    · exact Except.noConfusion hr
  have h := main aLikert tblLikert "A" "B" vals5 rLikert rfl rfl rfl
    ⟨1, by decide, 2, by decide, by decide⟩ rfl
  exact ⟨main, rfl, by decide, by decide, by decide, by decide,
    h.1, h.2.1, h.2.2.1, h.2.2.2⟩

/-- Witness: the identical-columns theorem applied at the concrete 1..5
table. -/
theorem identical_columns_perfect_witness :
    (rLikert.kendall_tau.num : ℝ) / Real.sqrt (rLikert.kendall_tau.rad : ℝ) = 1 ∧
    rLikert.kendall_interpretation = "Perfect agreement" ∧
    rLikert.spearman_interpretation = "Perfect positive correlation" := by
  have h := identical_columns_perfect.1 aLikert tblLikert "A" "B" vals5 rLikert
    rfl rfl rfl ⟨1, by decide, 2, by decide, by decide⟩ rfl
  exact ⟨h.1, h.2.2.1, h.2.2.2⟩
